import Mathlib

/-!
Verification development for the thumbnails server
(`src/server.js`, `src/middleware/auth.js`).

The server keeps a single in-memory conversion cache built on the
`node-cache` npm library (`new NodeCache({ stdTTL: 2700, checkperiod: 300 })`)
and a second `node-cache` instance for the moderator allowlist
(`stdTTL: 86400`).  The relevant, documented behaviour of `node-cache`
(version 5.x, as depended on by the repository) is embedded below:

* an entry stores the value together with an absolute expiry timestamp `t`
  in milliseconds (`t = 0` means "never expires"); `set` without an explicit
  ttl uses the instance `stdTTL` (seconds), so `t = now + stdTTL * 1000`;
* `get` checks `data.t !== 0 && data.t < Date.now()`: an expired entry is
  deleted and counted as a miss, a live entry is a hit; a missing key is a
  miss;
* `del` removes the key and does not touch the hit/miss counters;
* `flushAll` empties the data *and resets the statistics* (hits, misses,
  keys) to zero — `node-cache` provides `flushStats` separately;
* `getStats` reports the stored key count and the hit/miss counters.

Timestamps are `Nat` milliseconds.  Image payloads are abstract byte lists;
the `sharp` image converter is an abstract function `ImgBytes → Option ImgBytes`
(`none` models a thrown conversion error).  The Cloudflare R2 blob store is
a function `String → Option ImgBytes` (`none` models `NoSuchKey`).
-/

/-- Image payload bytes (contents are irrelevant to the handlers' logic). -/
abbrev ImgBytes := List Nat

/-!
Character-list implementations of the JavaScript string primitives used by
the handlers (`endsWith`, `startsWith`, `trim`, `toLowerCase`, `split`).
They are written structurally so that concrete runs reduce inside the
kernel; on the ASCII identifiers and file names the server manipulates
they agree with the JS operations.
-/

/-- JS `String.prototype.endsWith`. -/
def jsEndsWith (s suffix : String) : Bool :=
  decide (suffix.data.length ≤ s.data.length) &&
    s.data.drop (s.data.length - suffix.data.length) == suffix.data

/-- JS `String.prototype.startsWith`. -/
def jsStartsWith (s pre : String) : Bool :=
  s.data.take pre.data.length == pre.data

/-- ASCII whitespace, the cases relevant to the server's inputs. -/
def isSpaceChar (c : Char) : Bool :=
  c == ' ' || c == '\t' || c == '\n' || c == '\r'

/-- JS `String.prototype.trim` (ASCII whitespace). -/
def jsTrim (s : String) : String :=
  ⟨(((s.data.dropWhile isSpaceChar).reverse.dropWhile isSpaceChar).reverse)⟩

/-- JS `String.prototype.toLowerCase` (ASCII letters). -/
def jsToLower (s : String) : String :=
  ⟨s.data.map Char.toLower⟩

/-- Split a character list on a separator character; like JS
`split`, a trailing separator yields a trailing empty piece. -/
def splitOnCharAux (sep : Char) : List Char → List (List Char)
  | [] => [[]]
  | c :: rest =>
    let r := splitOnCharAux sep rest
    if c == sep then [] :: r
    else
      match r with
      | [] => [[c]]
      | h :: t => (c :: h) :: t

/-- JS `String.prototype.split` with a one-character separator. -/
def jsSplitChar (sep : Char) (s : String) : List String :=
  (splitOnCharAux sep s.data).map (fun l => ⟨l⟩)

/-- A stored `node-cache` entry: value plus absolute expiry time `t`
in milliseconds (`t = 0` = never expires). -/
structure NCEntry (α : Type) where
  val : α
  t : Nat
  deriving DecidableEq

/-- A `node-cache` instance: association list of entries plus the
hit/miss counters and the per-instance default ttl (seconds). -/
structure NodeCache (α : Type) where
  data : List (String × NCEntry α)
  hits : Nat
  misses : Nat
  stdTTL : Nat
  deriving DecidableEq

/-- First entry bound to `k` in the association list, if any. -/
def lookupEntry {α : Type} : List (String × NCEntry α) → String → Option (NCEntry α)
  | [], _ => none
  | kv :: rest, k => if kv.1 = k then some kv.2 else lookupEntry rest k

/-- Remove every binding of `k` from the association list. -/
def eraseKey {α : Type} : List (String × NCEntry α) → String → List (String × NCEntry α)
  | [], _ => []
  | kv :: rest, k => if kv.1 = k then eraseKey rest k else kv :: eraseKey rest k

/-- `node-cache` `get(key)`: a live entry is a hit; an expired entry is
purged and counted as a miss; a missing key is a miss. -/
def NodeCache.get {α : Type} (c : NodeCache α) (now : Nat) (k : String) :
    Option α × NodeCache α :=
  match lookupEntry c.data k with
  | none => (none, { c with misses := c.misses + 1 })
  | some e =>
    if e.t ≠ 0 ∧ e.t < now then
      (none, { c with data := eraseKey c.data k, misses := c.misses + 1 })
    else
      (some e.val, { c with hits := c.hits + 1 })

/-- `node-cache` `set(key, value[, ttl])`: unconditional overwrite; the
expiry stamp comes from the explicit ttl or else the instance `stdTTL`
(both in seconds, `0` = never expires). -/
def NodeCache.set {α : Type} (c : NodeCache α) (now : Nat) (k : String) (v : α)
    (ttl : Option Nat) : NodeCache α :=
  let t :=
    match ttl with
    | some tt => if tt = 0 then 0 else now + tt * 1000
    | none => if c.stdTTL = 0 then 0 else now + c.stdTTL * 1000
  { c with data := (k, ⟨v, t⟩) :: eraseKey c.data k }

/-- `node-cache` `del(key)`: removes the binding, leaves the counters. -/
def NodeCache.del {α : Type} (c : NodeCache α) (k : String) : NodeCache α :=
  { c with data := eraseKey c.data k }

/-- `node-cache` `flushAll()`: empties the data and resets the stats. -/
def NodeCache.flushAll {α : Type} (c : NodeCache α) : NodeCache α :=
  { data := [], hits := 0, misses := 0, stdTTL := c.stdTTL }

/-- The fields of `getStats()` surfaced by the server's stats endpoints. -/
structure CacheStats where
  keys : Nat
  hits : Nat
  misses : Nat
  deriving DecidableEq

/-- `node-cache` `getStats()`. -/
def NodeCache.getStats {α : Type} (c : NodeCache α) : CacheStats :=
  ⟨c.data.length, c.hits, c.misses⟩

/-- A fresh cache instance, as created by `new NodeCache({ stdTTL })`. -/
def emptyCache {α : Type} (stdTTL : Nat) : NodeCache α :=
  ⟨[], 0, 0, stdTTL⟩

/-- The value a `get` at time `now` would return for `k`, without the
side effects: `some v` exactly for a live (unexpired) entry. -/
def liveLookup {α : Type} (c : NodeCache α) (now : Nat) (k : String) : Option α :=
  match lookupEntry c.data k with
  | none => none
  | some e => if e.t ≠ 0 ∧ e.t < now then none else some e.val

theorem lookupEntry_eraseKey_self {α : Type} (d : List (String × NCEntry α)) (k : String) :
    lookupEntry (eraseKey d k) k = none := by
  induction d with
  | nil => rfl
  | cons kv rest ih =>
    by_cases h : kv.1 = k <;> simp [eraseKey, lookupEntry, h, ih]

theorem lookupEntry_eraseKey_ne {α : Type} (d : List (String × NCEntry α))
    (k k2 : String) (h : k2 ≠ k) :
    lookupEntry (eraseKey d k) k2 = lookupEntry d k2 := by
  induction d with
  | nil => rfl
  | cons kv rest ih =>
    by_cases hk : kv.1 = k
    · rw [show eraseKey (kv :: rest) k = eraseKey rest k by simp [eraseKey, hk]]
      rw [ih]
      have hne : kv.1 ≠ k2 := by rw [hk]; exact Ne.symm h
      simp [lookupEntry, hne]
    · rw [show eraseKey (kv :: rest) k = kv :: eraseKey rest k by simp [eraseKey, hk]]
      simp [lookupEntry, ih]

theorem lookupEntry_eraseKey_isSome {α : Type} (d : List (String × NCEntry α))
    (k k2 : String) (h : (lookupEntry (eraseKey d k) k2).isSome = true) :
    (lookupEntry d k2).isSome = true := by
  by_cases hk : k2 = k
  · rw [hk, lookupEntry_eraseKey_self] at h
    simp at h
  · rwa [lookupEntry_eraseKey_ne d k k2 hk] at h

/-- The R2 blob store as seen through `GetObjectCommand`: `none` models a
`NoSuchKey` error. -/
abbrev BlobStore := String → Option ImgBytes

/-- `PutObjectCommand`: overwrite the object at `k`. -/
def storePut (s : BlobStore) (k : String) (v : ImgBytes) : BlobStore :=
  fun k2 => if k2 = k then some v else s k2

/-- `DeleteObjectCommand`: remove the object at `k`. -/
def storeDel (s : BlobStore) (k : String) : BlobStore :=
  fun k2 => if k2 = k then none else s k2

/-- A bucket with no objects. -/
def emptyStore : BlobStore := fun _ => none

/-- The composite conversion-cache key derived in the fetch handlers:
backtick-template `fileName_format` (`server.js` line 126). -/
def mkCacheKey (fileName format : String) : String :=
  fileName ++ "_" ++ format

/-- Responses of `GET /api/image/:fileName` (and the identical
`GET /api/v1/image/:fileName`): `ok` carries the `Content-Type` header,
the `X-Cache` header and the body; `notFound` is the 404 for `NoSuchKey`;
`serverError` is the catch-all 500. -/
inductive FetchResp
  | ok (contentType : String) (xcache : String) (body : ImgBytes)
  | notFound
  | serverError
  deriving DecidableEq

/-- The part of the fetch handler after the cache check: download from R2,
serve webp directly, convert webp to png (populating the cache), or fall
through to the default content-type branch (`server.js` lines 138-173). -/
def getImageMiss (store : BlobStore) (conv : ImgBytes → Option ImgBytes)
    (now : Nat) (c1 : NodeCache ImgBytes) (fileName format cacheKey : String) :
    FetchResp × NodeCache ImgBytes :=
  match store fileName with
  | none => (FetchResp.notFound, c1)
  | some buf =>
    if format = "webp" ∧ jsEndsWith fileName ".webp" = true then
      (FetchResp.ok "image/webp" "MISS" buf, c1)
    else if format = "png" ∧ jsEndsWith fileName ".webp" = true then
      match conv buf with
      | none => (FetchResp.serverError, c1)
      | some png =>
        (FetchResp.ok "image/png" "MISS" png, NodeCache.set c1 now cacheKey png none)
    else
      (FetchResp.ok
        (if jsEndsWith fileName ".webp" = true then "image/webp"
         else if jsEndsWith fileName ".png" = true then "image/png"
         else "image/jpeg") "MISS" buf, c1)

/-- `GET /api/image/:fileName` (`server.js` lines 120-182; the v1 route is
byte-for-byte identical): the format query defaults to `"png"`; only a
png request consults the conversion cache, returning a cached value as a
HIT; otherwise the R2 download path runs.  `conv` embeds
`sharp(buffer).png().toBuffer()` (`none` = the converter throws, which the
catch-all turns into a 500). -/
def getImage (store : BlobStore) (conv : ImgBytes → Option ImgBytes)
    (now : Nat) (c : NodeCache ImgBytes) (fileName : String)
    (formatQ : Option String) : FetchResp × NodeCache ImgBytes :=
  let format := formatQ.getD "png"
  let cacheKey := mkCacheKey fileName format
  if format = "png" then
    let r := NodeCache.get c now cacheKey
    match r.1 with
    | some v => (FetchResp.ok "image/png" "HIT" v, r.2)
    | none => getImageMiss store conv now r.2 fileName format cacheKey
  else
    getImageMiss store conv now c fileName format cacheKey

/-- Split off the extension at the last dot, following node's
`path.extname` on plain file names: no dot, or a dot only at position 0,
yields an empty extension. -/
def dotSplit (s : String) : String × String :=
  match (((s.data.enum.filter (fun p => p.2 == '.')).map (fun p => p.1)).getLast?) with
  | none => (s, "")
  | some 0 => (s, "")
  | some i => (⟨s.data.take i⟩, ⟨s.data.drop i⟩)

/-- Node's `path.basename(s, ext)`: strip the suffix `ext` when it matches
case-sensitively and is not the whole name. -/
def stripSuffix (s ext : String) : String :=
  if ext ≠ "" ∧ s ≠ ext ∧ jsEndsWith s ext = true then
    ⟨s.data.take (s.length - ext.length)⟩
  else s

/-- Responses of the upload handlers. -/
inductive UploadResp
  | ok (fileName : String)
  | badRequest
  | serverError
  deriving DecidableEq

/-- `POST /api/upload` = `POST /api/v1/upload` after the middleware
(`server.js` lines 44-115, 389-460, 725-797): png/jpg/jpeg inputs are
converted to webp (`conv` embeds `sharp(...).webp({quality: 85})`; `none` =
throw, caught as a 500 before any store or cache mutation), other
non-webp extensions are rejected, then the object is `put` under
`finalFileName` and `imageCache.del(finalFileName)` runs.  Returns the
response together with the new store and cache. -/
def uploadImage (conv : ImgBytes → Option ImgBytes) (store : BlobStore)
    (cache : NodeCache ImgBytes) (originalName : String) (buf : ImgBytes) :
    UploadResp × BlobStore × NodeCache ImgBytes :=
  let ext := jsToLower (dotSplit originalName).2
  let base := stripSuffix originalName ext
  if ext = ".png" ∨ ext = ".jpg" ∨ ext = ".jpeg" then
    match conv buf with
    | none => (UploadResp.serverError, store, cache)
    | some wb =>
      (UploadResp.ok (base ++ ".webp"),
       storePut store (base ++ ".webp") wb,
       NodeCache.del cache (base ++ ".webp"))
  else if ext = ".webp" then
    (UploadResp.ok originalName,
     storePut store originalName buf,
     NodeCache.del cache originalName)
  else
    (UploadResp.badRequest, store, cache)

/-- `DELETE /api/image/:fileName` core (`server.js` lines 218-242):
delete the object and drop both derived cache keys. -/
def deleteImageCore (store : BlobStore) (c : NodeCache ImgBytes) (fn : String) :
    BlobStore × NodeCache ImgBytes :=
  (storeDel store fn,
   NodeCache.del (NodeCache.del c (mkCacheKey fn "png")) (mkCacheKey fn "webp"))

/-- Line processing of `loadModerators` (`server.js` lines 359-363):
split on newlines, trim, drop empty and `#`-comment lines, lower-case. -/
def processModerators (content : String) : List String :=
  (((jsSplitChar '\n' content).map jsTrim).filter
    (fun l => !(l == "") && !(jsStartsWith l "#"))).map jsToLower

/-- `loadModerators` (`server.js` lines 347-376): return the cached list
when the cache has it; otherwise read `moderators.txt` (`file`, where
`none` models an unreadable file whose `fs.readFile` throws), process it
and cache the result; the catch block turns a read failure into `[]`. -/
def loadModerators (now : Nat) (mc : NodeCache (List String)) (file : Option String) :
    List String × NodeCache (List String) :=
  match NodeCache.get mc now "moderators_list" with
  | (some cached, mc1) => (cached, mc1)
  | (none, mc1) =>
    match file with
    | none => ([], mc1)
    | some content =>
      let mods := processModerators content
      (mods, NodeCache.set mc1 now "moderators_list" mods none)

/-- `POST /api/v1/moderators/reload` core (`server.js` lines 700-718):
delete the cached list, then reload. -/
def reloadModerators (now : Nat) (mc : NodeCache (List String)) (file : Option String) :
    List String × NodeCache (List String) :=
  loadModerators now (NodeCache.del mc "moderators_list") file

/-- `isModerator` (`server.js` lines 379-382): membership of the
lower-cased (not trimmed) username in the loaded list. -/
def isModerator (now : Nat) (mc : NodeCache (List String)) (file : Option String)
    (username : String) : Bool × NodeCache (List String) :=
  match loadModerators now mc file with
  | (mods, mc1) => (mods.contains (jsToLower username), mc1)

/-- Outcomes of the `requireApiKey` middleware
(`src/middleware/auth.js`): the three JSON error codes
`MISSING_API_KEY` (401), `SERVER_MISCONFIGURED` (500),
`INVALID_API_KEY` (403), and `proceed` for `next()`. -/
inductive AuthOutcome
  | missingKey
  | misconfigured
  | invalidKey
  | proceed
  deriving DecidableEq

/-- Parsing of the `API_KEYS` environment variable: absent or empty
(falsy) gives no keys, otherwise split on commas and trim each part. -/
def parseApiKeys (env : Option String) : List String :=
  match env with
  | none => []
  | some s => if s = "" then [] else (jsSplitChar ',' s).map jsTrim

/-- `requireApiKey(req, res, next)`: a falsy `x-api-key` header (absent or
empty string) is rejected first; then an empty configured key list; then
an unlisted key; a listed key proceeds. -/
def requireApiKey (header env : Option String) : AuthOutcome :=
  match header with
  | none => AuthOutcome.missingKey
  | some k =>
    if k = "" then AuthOutcome.missingKey
    else
      let validKeys := parseApiKeys env
      if validKeys.length = 0 then AuthOutcome.misconfigured
      else if validKeys.contains k then AuthOutcome.proceed
      else AuthOutcome.invalidKey

/-- Express middleware chaining for the protected v1 routes: the handler
runs only when `requireApiKey` calls `next()`. -/
def withApiKey {σ : Type} (header env : Option String) (handler : σ → σ) (s : σ) : σ :=
  match requireApiKey header env with
  | AuthOutcome.proceed => handler s
  | _ => s

/-- Blob store plus conversion cache: the mutable state the image
endpoints share. -/
abbrev ServerStore := BlobStore × NodeCache ImgBytes

/-- `POST /api/v1/upload` state effect (`requireApiKey` then the upload
core). -/
def v1Upload (header env : Option String) (conv : ImgBytes → Option ImgBytes)
    (originalName : String) (buf : ImgBytes) (s : ServerStore) : ServerStore :=
  withApiKey header env (fun p => (uploadImage conv p.1 p.2 originalName buf).2) s

/-- `DELETE /api/v1/image/:fileName` state effect. -/
def v1DeleteImage (header env : Option String) (fn : String) (s : ServerStore) :
    ServerStore :=
  withApiKey header env (fun p => deleteImageCore p.1 p.2 fn) s

/-- `POST /api/v1/cache/clear` state effect (`server.js` lines 647-653). -/
def v1CacheClear (header env : Option String) (c : NodeCache ImgBytes) :
    NodeCache ImgBytes :=
  withApiKey header env NodeCache.flushAll c

/-- `POST /api/v1/moderators/reload` state effect. -/
def v1ModeratorsReload (header env : Option String) (now : Nat) (file : Option String)
    (mc : NodeCache (List String)) : NodeCache (List String) :=
  withApiKey header env (fun m => (reloadModerators now m file).2) mc

/-- `POST /api/upload` (legacy, `server.js` lines 725-797): same upload
core with no auth middleware — the header parameters are never read. -/
def legacyUpload (_header _env : Option String) (conv : ImgBytes → Option ImgBytes)
    (originalName : String) (buf : ImgBytes) (s : ServerStore) : ServerStore :=
  (uploadImage conv s.1 s.2 originalName buf).2

/-- `POST /api/cache/clear` (legacy, `server.js` lines 948-955): flushes
unconditionally — the header parameters are never read. -/
def legacyCacheClear (_header _env : Option String) (c : NodeCache ImgBytes) :
    NodeCache ImgBytes :=
  NodeCache.flushAll c

/-!
Helper lemmas about the embedded operations, shared by the claim
theorems below.
-/

theorem NodeCache.get_fst {α : Type} (c : NodeCache α) (now : Nat) (k : String) :
    (NodeCache.get c now k).1 = liveLookup c now k := by
  unfold NodeCache.get liveLookup
  cases lookupEntry c.data k with
  | none => rfl
  | some e => by_cases h : e.t ≠ 0 ∧ e.t < now <;> simp [h]

theorem NodeCache.get_stats_total {α : Type} (c : NodeCache α) (now : Nat) (k : String) :
    (NodeCache.get c now k).2.hits + (NodeCache.get c now k).2.misses
      = c.hits + c.misses + 1 := by
  unfold NodeCache.get
  cases lookupEntry c.data k with
  | none => simp; omega
  | some e => by_cases h : e.t ≠ 0 ∧ e.t < now <;> simp [h] <;> omega

theorem lookupEntry_cons_ne {α : Type} (kv : String × NCEntry α)
    (d : List (String × NCEntry α)) (k2 : String) (h : kv.1 ≠ k2) :
    lookupEntry (kv :: d) k2 = lookupEntry d k2 := by
  simp [lookupEntry, h]

theorem NodeCache.set_data_isSome {α : Type} (c : NodeCache α) (now : Nat) (k : String)
    (v : α) (ttl : Option Nat) (k2 : String)
    (h : (lookupEntry (NodeCache.set c now k v ttl).data k2).isSome = true) :
    (lookupEntry c.data k2).isSome = true ∨ k2 = k := by
  by_cases hk : k2 = k
  · exact Or.inr hk
  · unfold NodeCache.set at h
    rw [lookupEntry_cons_ne _ _ _ (fun hx => hk hx.symm)] at h
    exact Or.inl (lookupEntry_eraseKey_isSome c.data k k2 h)

theorem NodeCache.get_snd_data_isSome {α : Type} (c : NodeCache α) (now : Nat)
    (k k2 : String) (h : (lookupEntry (NodeCache.get c now k).2.data k2).isSome = true) :
    (lookupEntry c.data k2).isSome = true := by
  unfold NodeCache.get at h
  split at h
  · exact h
  · split at h
    · exact lookupEntry_eraseKey_isSome c.data k k2 h
    · exact h

theorem liveLookup_get_snd {α : Type} (c : NodeCache α) (now : Nat) (k k2 : String) :
    liveLookup (NodeCache.get c now k).2 now k2 = liveLookup c now k2 := by
  unfold NodeCache.get
  split
  · rfl
  next e heq =>
    split
    next hexp =>
      by_cases hk : k2 = k
      · subst hk
        unfold liveLookup
        rw [lookupEntry_eraseKey_self, heq]
        simp [hexp]
      · unfold liveLookup
        rw [lookupEntry_eraseKey_ne c.data k k2 hk]
    next hexp => rfl

theorem getImageMiss_cache_of_ne_png (store : BlobStore) (conv : ImgBytes → Option ImgBytes)
    (now : Nat) (c : NodeCache ImgBytes) (fn format key : String) (h : format ≠ "png") :
    (getImageMiss store conv now c fn format key).2 = c := by
  unfold getImageMiss
  cases store fn with
  | none => rfl
  | some buf =>
    by_cases h1 : format = "webp" ∧ jsEndsWith fn ".webp" = true
    · simp [h1]
    · have h2 : ¬(format = "png" ∧ jsEndsWith fn ".webp" = true) := fun hx => h hx.1
      simp [h1, h2]

theorem getImageMiss_stats (store : BlobStore) (conv : ImgBytes → Option ImgBytes)
    (now : Nat) (c : NodeCache ImgBytes) (fn format key : String) :
    (getImageMiss store conv now c fn format key).2.hits = c.hits ∧
    (getImageMiss store conv now c fn format key).2.misses = c.misses := by
  unfold getImageMiss
  cases store fn with
  | none => exact ⟨rfl, rfl⟩
  | some buf =>
    by_cases h1 : format = "webp" ∧ jsEndsWith fn ".webp" = true
    · simp [h1]
    · by_cases h2 : format = "png" ∧ jsEndsWith fn ".webp" = true
      · simp only [h1, if_false, h2, if_true]
        cases conv buf with
        | none => exact ⟨rfl, rfl⟩
        | some png => exact ⟨rfl, rfl⟩
      · simp [h1, h2]

theorem getImageMiss_data_isSome (store : BlobStore) (conv : ImgBytes → Option ImgBytes)
    (now : Nat) (c : NodeCache ImgBytes) (fn format key : String) (k2 : String)
    (h : (lookupEntry (getImageMiss store conv now c fn format key).2.data k2).isSome = true) :
    (lookupEntry c.data k2).isSome = true ∨ k2 = key := by
  unfold getImageMiss at h
  split at h
  · exact Or.inl h
  · split at h
    · exact Or.inl h
    · split at h
      · split at h
        · exact Or.inl h
        · exact NodeCache.set_data_isSome c now key _ none k2 h
      · exact Or.inl h

/-!
Claim theorems.
-/

/-- Scenario for the upload-invalidation claim: the conversion cache holds
a live entry under `a.webp_png` (bytes `[7]` converted from the old
`a.webp`), the store holds the old object, and a new `a.png` (converting
to webp bytes `[1]`) is uploaded. -/
def c1Run : UploadResp × BlobStore × NodeCache ImgBytes :=
  uploadImage (fun _ => some [1]) (storePut emptyStore "a.webp" [5])
    (NodeCache.set (emptyCache 2700) 0 (mkCacheKey "a.webp" "png") [7] none)
    "a.png" [0]

/-- C1: the upload handler stores the converted object under key
`a.webp` and then calls `imageCache.del("a.webp")` (`server.js` line 97) —
but every key the fetch handlers read or write has the shape
`fileName_format` (line 126), so the deletion never matches a cached
conversion entry.  Evaluating the code at the failing input: after the
upload succeeds and overwrites the object, the stale entry `a.webp_png`
is still live and the next png fetch serves the old bytes `[7]` as a
cache HIT instead of converting the new object (whose conversion is
`[3]`). -/
theorem upload_leaves_stale_conversion :
    c1Run.1 = UploadResp.ok "a.webp" ∧
    c1Run.2.1 "a.webp" = some [1] ∧
    (getImage c1Run.2.1 (fun _ => some [3]) 10 c1Run.2.2 "a.webp" (some "png")).1
      = FetchResp.ok "image/png" "HIT" [7] := by decide

/-- A cache state with one live entry and one recorded hit, reachable by a
set followed by a successful get. -/
def c2Cache : NodeCache ImgBytes :=
  (NodeCache.get (NodeCache.set (emptyCache 2700) 0 "lvl1.webp_png" [1] none)
    1 "lvl1.webp_png").2

/-- C2 (counterexample): the clear endpoints call `node-cache`'s
`flushAll`, which resets the statistics: with one recorded hit before the
clear, `stats()` reports `hits = 0` afterwards, not the same value as
before. -/
theorem cache_clear_resets_stats_cex :
    (NodeCache.getStats c2Cache).hits = 1 ∧
    (NodeCache.getStats (NodeCache.flushAll c2Cache)).hits = 0 ∧
    (NodeCache.getStats (NodeCache.flushAll c2Cache)).hits
      ≠ (NodeCache.getStats c2Cache).hits := by decide

/-- C2 (amended): `flushAll` — the operation both clear endpoints invoke —
empties the entry map and resets the `hits` and `misses` counters to
zero. -/
theorem flushAll_clears_entries_and_resets_stats {α : Type} (c : NodeCache α) :
    (NodeCache.flushAll c).data = [] ∧
    (NodeCache.getStats (NodeCache.flushAll c)).hits = 0 ∧
    (NodeCache.getStats (NodeCache.flushAll c)).misses = 0 :=
  ⟨rfl, rfl, rfl⟩

/-- A moderator cache holding a live cached list `["admin"]`. -/
def c3Cache : NodeCache (List String) :=
  NodeCache.set (emptyCache 86400) 0 "moderators_list" ["admin"] none

/-- C3 (counterexample): with a live cached set `["admin"]` and an
unreadable backing file, the forced reload (`POST /api/v1/moderators/reload`:
`moderatorCache.del` then `loadModerators`) returns the empty list — not
the previous cached set, which it has already discarded. -/
theorem moderators_reload_discards_previous_cex :
    liveLookup c3Cache 1 "moderators_list" = some ["admin"] ∧
    (reloadModerators 1 c3Cache none).1 = [] ∧
    (["admin"] : List String) ≠ [] := by decide

/-- C3 (amended): when the backing source is unreadable, the forced
reload never raises (the catch block yields a value) and always returns
the empty set, for every prior cache state — the previously cached set is
deleted before the read is attempted, so it is never returned. -/
theorem reload_unreadable_returns_empty (now : Nat) (mc : NodeCache (List String)) :
    (reloadModerators now mc none).1 = [] := by
  unfold reloadModerators loadModerators NodeCache.del NodeCache.get
  rw [lookupEntry_eraseKey_self]

/-- C6 (counterexample): an entry inserted at time 0 with the default ttl
`T = 2700 s = 2700000 ms` is still returned by a get at exactly
`t = T` after insertion — `node-cache` expires only when
`data.t < Date.now()` — whereas the claim requires absence at every
`t ≥ T`. -/
theorem ttl_boundary_hit_cex :
    (NodeCache.get (NodeCache.set (emptyCache 2700 : NodeCache ImgBytes) 0 "k" [5] none)
      (0 + 2700 * 1000) "k").1 = some [5] ∧
    (some [5] : Option ImgBytes) ≠ none := by decide

/-- C6 (amended): for an entry inserted at time `n` with the default ttl
(`stdTTL` seconds, positive), a get returns the stored value at any
elapsed time `d ≤ stdTTL * 1000` ms and returns absent at any
`d > stdTTL * 1000` ms. -/
theorem ttl_correctness_amended {α : Type} (c : NodeCache α) (k : String) (v : α)
    (n d : Nat) (h : 0 < c.stdTTL) :
    (d ≤ c.stdTTL * 1000 →
      (NodeCache.get (NodeCache.set c n k v none) (n + d) k).1 = some v) ∧
    (c.stdTTL * 1000 < d →
      (NodeCache.get (NodeCache.set c n k v none) (n + d) k).1 = none) := by
  have hstd : ¬c.stdTTL = 0 := Nat.pos_iff_ne_zero.mp h
  refine ⟨fun hd => ?_, fun hd => ?_⟩
  · have hlt : ¬c.stdTTL * 1000 < d := by omega
    simp [NodeCache.set, NodeCache.get, lookupEntry, hstd, hlt]
  · have hlt : n + c.stdTTL * 1000 ≠ 0 ∧ n + c.stdTTL * 1000 < n + d := by
      constructor <;> omega
    simp [NodeCache.set, NodeCache.get, lookupEntry, hstd, hlt]

/-- Witness for the amended TTL theorem at a concrete instance
(the 2700-second conversion cache, insertion at 0, get at elapsed 0). -/
theorem ttl_correctness_amended_witness :
    ((0 : Nat) ≤ 2700 * 1000 →
      (NodeCache.get (NodeCache.set (emptyCache 2700 : NodeCache ImgBytes) 0 "k" [5] none)
        (0 + 0) "k").1 = some [5]) ∧
    ((2700 : Nat) * 1000 < 0 →
      (NodeCache.get (NodeCache.set (emptyCache 2700 : NodeCache ImgBytes) 0 "k" [5] none)
        (0 + 0) "k").1 = none) :=
  ttl_correctness_amended (emptyCache 2700) "k" [5] 0 0 (by decide)

/-- C7 (counterexample): the membership check lower-cases but does **not**
trim the queried identifier: with source line `admin`, the query
`" admin"` (whose trimmed, lower-cased normal form `admin` equals the
normalized stored line) is reported not-a-member. -/
theorem moderator_check_no_trim_cex :
    (isModerator 0 (emptyCache 86400) (some "admin\n") " admin").1 = false ∧
    jsToLower (jsTrim " admin") = "admin" ∧
    "admin" ∈ processModerators "admin\n" := by decide

/-- C7 (amended): `isModerator` applies only `toLowerCase` (no trim) to
the queried identifier; starting from a fresh cache, it is true exactly
when the lower-cased query equals one of the processed source lines
(trimmed, non-blank, non-comment, lower-cased). -/
theorem isModerator_lowercase_membership (content username : String) :
    (isModerator 0 (emptyCache 86400) (some content) username).1 = true ↔
      jsToLower username ∈ processModerators content := by
  unfold isModerator loadModerators NodeCache.get emptyCache
  simp [lookupEntry, List.contains]

/-- Witness for the amended allowlist-normalization theorem: `AdMin`
matches a stored `admin` line. -/
theorem isModerator_lowercase_membership_witness :
    (isModerator 0 (emptyCache 86400) (some "admin\n") "AdMin").1 = true :=
  (isModerator_lowercase_membership "admin\n" "AdMin").mpr (by decide)

/-- C4 (counterexample): the legacy mutating endpoints carry no auth
middleware: a credential-less `POST /api/upload` of `a.png` performs the
store mutation (the bucket gains `a.webp`), falsifying "for every request
to such an endpoint without a valid credential, the mutation is not
performed". -/
theorem legacy_upload_mutates_without_credential_cex :
    (legacyUpload none none (fun _ => some [1]) "a.png" [0]
        (emptyStore, emptyCache 2700)).1 "a.webp" = some [1] ∧
    emptyStore "a.webp" = none := by decide

/-- C4 (amended): only the `/api/v1` mutating endpoints are guarded: when
`requireApiKey` does not proceed (missing, invalid or misconfigured),
none of v1 upload, v1 delete, v1 cache clear, v1 moderator reload mutates
its state; the legacy `/api` counterparts run their mutation with no
credential check at all. -/
theorem v1_mutations_require_valid_key (header env : Option String)
    (hna : requireApiKey header env ≠ AuthOutcome.proceed)
    (conv : ImgBytes → Option ImgBytes) (orig : String) (buf : ImgBytes)
    (fn : String) (now : Nat) (file : Option String)
    (s : ServerStore) (c : NodeCache ImgBytes) (mc : NodeCache (List String)) :
    v1Upload header env conv orig buf s = s ∧
    v1DeleteImage header env fn s = s ∧
    v1CacheClear header env c = c ∧
    v1ModeratorsReload header env now file mc = mc := by
  unfold v1Upload v1DeleteImage v1CacheClear v1ModeratorsReload withApiKey
  cases hh : requireApiKey header env with
  | proceed => exact absurd hh hna
  | missingKey => exact ⟨rfl, rfl, rfl, rfl⟩
  | misconfigured => exact ⟨rfl, rfl, rfl, rfl⟩
  | invalidKey => exact ⟨rfl, rfl, rfl, rfl⟩

/-- Witness for the v1 auth-guard theorem: a request with no key against
a server configured with key `secret` leaves every state unchanged. -/
theorem v1_mutations_require_valid_key_witness :
    v1Upload none (some "secret") (fun _ => some [1]) "a.png" [0]
        (emptyStore, emptyCache 2700) = (emptyStore, emptyCache 2700) ∧
    v1DeleteImage none (some "secret") "a.webp" (emptyStore, emptyCache 2700)
      = (emptyStore, emptyCache 2700) ∧
    v1CacheClear none (some "secret") (emptyCache 2700) = emptyCache 2700 ∧
    v1ModeratorsReload none (some "secret") 0 none (emptyCache 86400) = emptyCache 86400 :=
  v1_mutations_require_valid_key none (some "secret") (by decide) (fun _ => some [1])
    "a.png" [0] "a.webp" 0 none (emptyStore, emptyCache 2700) (emptyCache 2700)
    (emptyCache 86400)

/-- C8: the auth check has exactly four pairwise-distinct outcomes with
the source's precedence: a falsy (absent or empty) header gives
`MISSING_API_KEY` regardless of configuration; with a non-empty header,
an empty configured key set gives `SERVER_MISCONFIGURED`, an unlisted key
gives `INVALID_API_KEY`, and a listed key proceeds. -/
theorem requireApiKey_four_outcomes (header env : Option String) :
    (header = none → requireApiKey header env = AuthOutcome.missingKey) ∧
    (header = some "" → requireApiKey header env = AuthOutcome.missingKey) ∧
    (∀ k, header = some k → k ≠ "" → parseApiKeys env = [] →
      requireApiKey header env = AuthOutcome.misconfigured) ∧
    (∀ k, header = some k → k ≠ "" → k ∈ parseApiKeys env →
      requireApiKey header env = AuthOutcome.proceed) ∧
    (∀ k, header = some k → k ≠ "" → parseApiKeys env ≠ [] → k ∉ parseApiKeys env →
      requireApiKey header env = AuthOutcome.invalidKey) ∧
    (AuthOutcome.missingKey ≠ AuthOutcome.invalidKey ∧
     AuthOutcome.missingKey ≠ AuthOutcome.misconfigured ∧
     AuthOutcome.invalidKey ≠ AuthOutcome.misconfigured ∧
     AuthOutcome.missingKey ≠ AuthOutcome.proceed ∧
     AuthOutcome.invalidKey ≠ AuthOutcome.proceed ∧
     AuthOutcome.misconfigured ≠ AuthOutcome.proceed) := by
  refine ⟨?_, ?_, ?_, ?_, ?_, by decide⟩
  · intro h; subst h; rfl
  · intro h; subst h; rfl
  · intro k hh hk hkeys
    subst hh
    simp [requireApiKey, hk, hkeys]
  · intro k hh hk hmem
    subst hh
    have hne : parseApiKeys env ≠ [] := by
      intro h0; rw [h0] at hmem; cases hmem
    simp [requireApiKey, hk, hne, List.contains, hmem]
  · intro k hh hk hne hnm
    subst hh
    simp [requireApiKey, hk, hne, List.contains, hnm]

/-- Witness for the auth-outcome theorem: key `k1` against configured
`API_KEYS=k1, k2` proceeds. -/
theorem requireApiKey_four_outcomes_witness :
    requireApiKey (some "k1") (some "k1, k2") = AuthOutcome.proceed :=
  (requireApiKey_four_outcomes (some "k1") (some "k1, k2")).2.2.2.1 "k1" rfl
    (by decide) (by decide)

theorem liveLookup_set_self {α : Type} (c : NodeCache α) (now : Nat) (k : String) (v : α) :
    liveLookup (NodeCache.set c now k v none) now k = some v := by
  have hnl : ¬(now + c.stdTTL * 1000 < now) := by omega
  unfold NodeCache.set liveLookup
  by_cases h : c.stdTTL = 0 <;> simp [lookupEntry, h, hnl]

/-- A cache holding a live entry under the composite key
`(a.webp, webp)`. -/
def c5Cache : NodeCache ImgBytes :=
  NodeCache.set (emptyCache 2700) 0 (mkCacheKey "a.webp" "webp") [1] none

/-- C5 (counterexample): a fetch with `format=webp` performs **no**
conversion-cache get at all: despite a live cached value `[1]` under the
exact composite key `(a.webp, webp)`, the handler downloads the object
from the store and returns its bytes `[2]` as `X-Cache: MISS`, and the
cache — entries and hit/miss counters alike — is returned completely
unchanged. -/
theorem webp_fetch_bypasses_cache_cex :
    liveLookup c5Cache 5 (mkCacheKey "a.webp" "webp") = some [1] ∧
    getImage (storePut emptyStore "a.webp" [2]) (fun _ => some [3]) 5 c5Cache
        "a.webp" (some "webp")
      = (FetchResp.ok "image/webp" "MISS" [2], c5Cache) := by decide

/-- C5 (amended): the fetch handler consults the conversion cache only
when the requested format is `png`: (1) for any other format the cache is
untouched (no get, no set — state returned unchanged); (2) for a png
request exactly one cache get happens (hits + misses grows by one);
(3) on a png miss for a `.webp` object with a succeeding conversion, the
converted bytes are returned as `MISS` and stored live under
`(fileName, png)`. -/
theorem getImage_cache_discipline (store : BlobStore) (conv : ImgBytes → Option ImgBytes)
    (now : Nat) (c : NodeCache ImgBytes) (fn : String) (fq : Option String) :
    (fq.getD "png" ≠ "png" → (getImage store conv now c fn fq).2 = c) ∧
    (fq.getD "png" = "png" →
      (getImage store conv now c fn fq).2.hits + (getImage store conv now c fn fq).2.misses
        = c.hits + c.misses + 1) ∧
    (∀ buf png, fq.getD "png" = "png" →
      liveLookup c now (mkCacheKey fn "png") = none →
      store fn = some buf → jsEndsWith fn ".webp" = true → conv buf = some png →
      (getImage store conv now c fn fq).1 = FetchResp.ok "image/png" "MISS" png ∧
      liveLookup (getImage store conv now c fn fq).2 now (mkCacheKey fn "png") = some png) := by
  refine ⟨fun hne => ?_, fun heq => ?_, fun buf png heq hmiss hs hw hc => ?_⟩
  · simp only [getImage]
    rw [if_neg hne]
    exact getImageMiss_cache_of_ne_png store conv now c fn _ _ hne
  · simp only [getImage]
    rw [if_pos heq]
    cases hg : (NodeCache.get c now (mkCacheKey fn (fq.getD "png"))).1 with
    | some v => exact NodeCache.get_stats_total c now _
    | none =>
      have h2 := getImageMiss_stats store conv now
        (NodeCache.get c now (mkCacheKey fn (fq.getD "png"))).2 fn (fq.getD "png")
        (mkCacheKey fn (fq.getD "png"))
      dsimp only
      rw [h2.1, h2.2]
      exact NodeCache.get_stats_total c now _
  · have h1 : ¬(("png" : String) = "webp" ∧ jsEndsWith fn ".webp" = true) :=
      fun hx => absurd hx.1 (by decide)
    simp only [getImage, heq, if_true]
    rw [NodeCache.get_fst, hmiss]
    dsimp only
    unfold getImageMiss
    rw [hs]
    dsimp only
    rw [if_neg h1, if_pos ⟨rfl, hw⟩, hc]
    exact ⟨rfl, liveLookup_set_self _ now _ png⟩

/-- Witness for the cache-discipline theorem: a png fetch against an
empty cache records exactly one (miss) stat increment. -/
theorem getImage_cache_discipline_witness :
    (getImage emptyStore (fun _ => none) 0 (emptyCache 2700) "a" none).2.hits +
      (getImage emptyStore (fun _ => none) 0 (emptyCache 2700) "a" none).2.misses
      = (emptyCache 2700 : NodeCache ImgBytes).hits
        + (emptyCache 2700 : NodeCache ImgBytes).misses + 1 :=
  (getImage_cache_discipline emptyStore (fun _ => none) 0 (emptyCache 2700) "a" none).2.1 rfl

/-- C9: a fetch whose conversion fails (the converter raises on the
downloaded bytes) yields the catch-all server error — distinct from the
not-found signal — and stores nothing: every live cache entry is exactly
as before the request (the only cache effects of the failed request are
the miss counter and the opportunistic purge of the already-expired
entry, neither of which changes any live entry). -/
theorem conversion_failure_not_cached (store : BlobStore)
    (conv : ImgBytes → Option ImgBytes) (now : Nat) (c : NodeCache ImgBytes)
    (fn : String) (buf : ImgBytes) (hs : store fn = some buf)
    (hc : conv buf = none) (hw : jsEndsWith fn ".webp" = true)
    (hm : liveLookup c now (mkCacheKey fn "png") = none) :
    (getImage store conv now c fn (some "png")).1 = FetchResp.serverError ∧
    FetchResp.serverError ≠ FetchResp.notFound ∧
    (∀ k2, liveLookup (getImage store conv now c fn (some "png")).2 now k2
      = liveLookup c now k2) := by
  have h1 : ¬(("png" : String) = "webp" ∧ jsEndsWith fn ".webp" = true) :=
    fun hx => absurd hx.1 (by decide)
  simp only [getImage, Option.getD_some, if_true]
  rw [NodeCache.get_fst, hm]
  dsimp only
  unfold getImageMiss
  rw [hs]
  dsimp only
  rw [if_neg h1, if_pos ⟨rfl, hw⟩, hc]
  exact ⟨rfl, by decide, fun k2 => liveLookup_get_snd c now _ k2⟩

/-- Witness for the conversion-failure theorem: converter that always
throws, object `a.webp` present, empty cache. -/
theorem conversion_failure_not_cached_witness :
    (getImage (storePut emptyStore "a.webp" [9]) (fun _ => none) 0 (emptyCache 2700)
        "a.webp" (some "png")).1 = FetchResp.serverError ∧
    FetchResp.serverError ≠ FetchResp.notFound ∧
    (∀ k2, liveLookup (getImage (storePut emptyStore "a.webp" [9]) (fun _ => none) 0
        (emptyCache 2700) "a.webp" (some "png")).2 0 k2
      = liveLookup (emptyCache 2700 : NodeCache ImgBytes) 0 k2) :=
  conversion_failure_not_cached (storePut emptyStore "a.webp" [9]) (fun _ => none) 0
    (emptyCache 2700) "a.webp" [9] (by decide) rfl (by decide) rfl

/-- C10: the fetch handlers keep the conversion cache png-only: a fetch
for any format other than `png` returns the cache exactly unchanged
(neither read nor written), and any key present after a fetch was either
present before or is the request's `fileName_png` composite key — so
every key ever inserted by the fetch handlers has format component
`png`. -/
theorem fetch_cache_png_only (store : BlobStore) (conv : ImgBytes → Option ImgBytes)
    (now : Nat) (c : NodeCache ImgBytes) (fn : String) (fq : Option String) :
    (fq.getD "png" ≠ "png" → (getImage store conv now c fn fq).2 = c) ∧
    (∀ k2, (lookupEntry (getImage store conv now c fn fq).2.data k2).isSome = true →
      (lookupEntry c.data k2).isSome = true ∨ k2 = mkCacheKey fn "png") := by
  refine ⟨fun hne => ?_, fun k2 h => ?_⟩
  · simp only [getImage]
    rw [if_neg hne]
    exact getImageMiss_cache_of_ne_png store conv now c fn _ _ hne
  · by_cases hfmt : fq.getD "png" = "png"
    · simp only [getImage] at h
      rw [if_pos hfmt] at h
      cases hg : (NodeCache.get c now (mkCacheKey fn (fq.getD "png"))).1 with
      | some v =>
        rw [hg] at h
        exact Or.inl (NodeCache.get_snd_data_isSome c now _ k2 h)
      | none =>
        rw [hg] at h
        rcases getImageMiss_data_isSome store conv now _ fn _ _ k2 h with h2 | h2
        · exact Or.inl (NodeCache.get_snd_data_isSome c now _ k2 h2)
        · exact Or.inr (by rw [h2, hfmt])
    · simp only [getImage] at h
      rw [if_neg hfmt, getImageMiss_cache_of_ne_png store conv now c fn _ _ hfmt] at h
      exact Or.inl h

/-- Witness for the png-only cache theorem: a webp fetch leaves the empty
cache exactly unchanged. -/
theorem fetch_cache_png_only_witness :
    (getImage (storePut emptyStore "a" [1]) (fun _ => none) 0 (emptyCache 2700)
      "a" (some "webp")).2 = (emptyCache 2700 : NodeCache ImgBytes) :=
  (fetch_cache_png_only (storePut emptyStore "a" [1]) (fun _ => none) 0 (emptyCache 2700)
    "a" (some "webp")).1 (by decide)
